import Mathlib

/-!
Shallow embedding of `src/td/telegram/TopDialogManager.cpp` (the top-dialog
ranking/caching engine of the td client library) and proofs about the
spec's claims.

Modelling conventions:
* `double` ratings and timestamps are modelled as `ℚ` (exact arithmetic; the
  source uses float64).  The decay increment `rating_add` (which the source
  computes with `std::exp`) is kept abstract in the state-transition model:
  operations take a function `f : ℚ → ℚ → ℚ` standing for
  `fun now ts => rating_add(now, ts)`; the only fact the code relies on is
  its strict positivity.  The real-valued decay function itself is modelled
  separately over `ℝ` for the numerical claim.
* The six-element `std::array<TopDialogs, 6> by_category_` is modelled as a
  `List TopDialogs` indexed by `Fin 6` (the `CHECK(pos < size)` in the source
  always holds since categories are a closed six-element enum).
* External side effects (network sends, key-value-store writes, promises,
  logging) are not part of the state; where an operation emits one, the
  embedding records it as a flag (`did_fetch`, `did_flush`) or drops it.
-/

/-- Discriminated kind carried by a dialog identifier
(`DialogId::get_type()` in the source). -/
inductive DialogType
  | User
  | Chat
  | Channel
  | SecretChat
  | NoneType
  deriving DecidableEq, Repr

/-- Opaque dialog identifier: a discriminated kind plus the underlying
numeric identifier (source `DialogId`, an int64 whose range encodes the
kind). -/
structure DialogId where
  dtype : DialogType
  id : ℤ
  deriving DecidableEq, Repr

/-- One ranked entry: `struct TopDialog { DialogId dialog_id; double rating = 0; }`. -/
structure TopDialog where
  dialog_id : DialogId
  rating : ℚ
  deriving DecidableEq, Repr

/-- One Category Ranking Set:
`struct TopDialogs { bool is_dirty; double rating_timestamp = 0; vector<TopDialog> dialogs; }`. -/
structure TopDialogs where
  is_dirty : Bool := false
  rating_timestamp : ℚ := 0
  dialogs : List TopDialog := []
  deriving DecidableEq, Repr

instance : Inhabited TopDialogs := ⟨{}⟩

/-- Sync state of one data source (`enum class SyncState { None, Pending, Ok }`). -/
inductive SyncState
  | None
  | Pending
  | Ok
  deriving DecidableEq, Repr

/-- A queued `get_top_dialogs` request (the promise it carries is external
and is answered from current state when the scheduler drains the queue). -/
structure GetTopDialogsQuery where
  category : Fin 6
  limit : ℕ
  deriving DecidableEq, Repr

/-- The mutable state of `TopDialogManager` relevant to the claims.
`rating_e_decay_` itself does not appear: the decay computation is
abstracted as a function parameter of the operations (see file header). -/
structure MgrState where
  is_active : Bool := false
  by_category : List TopDialogs := List.replicate 6 {}
  server_sync_state : SyncState := SyncState.None
  db_sync_state : SyncState := SyncState.None
  last_server_sync : ℚ := 0
  first_unsync_change : Option ℚ := none
  was_first_sync : Bool := false
  pending_get_top_dialogs : List GetTopDialogsQuery := []
  deriving DecidableEq, Repr

/-- Replace the element at index `i` (no-op when out of range), used to
model in-place mutation of `by_category_[pos]`. -/
def modifyAt (i : ℕ) (g : TopDialogs → TopDialogs) : List TopDialogs → List TopDialogs
  | [] => []
  | x :: xs =>
    match i with
    | 0 => g x :: xs
    | n + 1 => x :: modifyAt n g xs

/-- Read `by_category_[pos]` (defaulting to an empty set out of range;
in the source the index is always in range). -/
def getCat (s : MgrState) (c : Fin 6) : TopDialogs :=
  s.by_category.getD c.val default

/-- `if (!first_unsync_change_) first_unsync_change_ = Timestamp::now_cached();` -/
def stampIfUnset (now : ℚ) : Option ℚ → Option ℚ
  | none => some now
  | some t => some t

/-- Split a dialog list at the first entry whose id equals `d`
(models the `std::find_if` over `top_dialogs.dialogs`). -/
def splitAtDialog (d : DialogId) : List TopDialog → Option (List TopDialog × TopDialog × List TopDialog)
  | [] => none
  | x :: xs =>
    if x.dialog_id = d then some ([], x, xs)
    else (splitAtDialog d xs).map (fun p => (x :: p.1, p.2.1, p.2.2))

/-- The leftward bubble of `on_dialog_used`: the updated entry `x` sits
between the reversed prefix `revPre` and the suffix `suf`; it swaps left
past its predecessor `y` while `!(y < x)`, where `TopDialog::operator<`
ranks higher ratings first, so the swap continues while
`y.rating ≤ x.rating` and stops when `x.rating < y.rating`.
(`operator<` lives in the header, outside `src/`; modelled from the spec:
"Total order defined as: higher rating first".) -/
def bubble (x : TopDialog) : List TopDialog → List TopDialog → List TopDialog
  | [], suf => x :: suf
  | y :: ys, suf =>
    if x.rating < y.rating then (y :: ys).reverse ++ x :: suf
    else bubble x ys (y :: suf)

/-- Category-local part of `TopDialogManager::on_dialog_used`: mark dirty,
find (or append with rating 0, modelled from the spec: "insert with
rating 0", the field default in the header) the entry for `d`, add
`delta = rating_add(date, rating_timestamp)` to its rating, and bubble it
leftward. -/
def on_dialog_used_td (f : ℚ → ℚ → ℚ) (d : DialogId) (date : ℚ) (td : TopDialogs) : TopDialogs :=
  let delta := f date td.rating_timestamp
  let dialogs :=
    match splitAtDialog d td.dialogs with
    | none => bubble { dialog_id := d, rating := 0 + delta } td.dialogs.reverse []
    | some (pre, x, suf) => bubble { dialog_id := d, rating := x.rating + delta } pre.reverse suf
  { td with is_dirty := true, dialogs := dialogs }

/-- `TopDialogManager::on_dialog_used` (lines 93-128), without the trailing
`loop()` call, which is modelled separately as `loop`. -/
def on_dialog_used (f : ℚ → ℚ → ℚ) (now date : ℚ) (c : Fin 6) (d : DialogId) (s : MgrState) : MgrState :=
  if s.is_active = false then s
  else
    { s with
      by_category := modifyAt c.val (on_dialog_used_td f d date) s.by_category,
      first_unsync_change := stampIfUnset now s.first_unsync_change }

/-- `TopDialogManager::remove_dialog` (lines 130-161), without the trailing
`loop()` call (modelled separately) and without the fire-and-forget
`contacts_resetTopPeerRating` network send (external).  If the entry is
absent the function returns before touching any state. -/
def remove_dialog (now : ℚ) (c : Fin 6) (d : DialogId) (s : MgrState) : MgrState :=
  if s.is_active = false then s
  else
    match splitAtDialog d (getCat s c).dialogs with
    | none => s
    | some (pre, _, suf) =>
      { s with
        by_category :=
          modifyAt c.val (fun td => { td with is_dirty := true, dialogs := pre ++ suf })
            s.by_category,
        first_unsync_change := stampIfUnset now s.first_unsync_change }

/-- `MAX_TOP_DIALOGS_LIMIT` (declared in the header, outside `src/`).
Modelled from the spec: "`MAX_LIMIT` is a fixed upper bound independent of
the caller-requested limit"; the concrete value is a deployment parameter
and no claim depends on it. -/
def MAX_TOP_DIALOGS_LIMIT : ℕ := 30

/-- `SERVER_SYNC_DELAY` (declared in the header, outside `src/`).
Modelled from the spec: a fixed strictly positive duration ("remote refresh
debounce should be long (hours)"); the exact value is a deployment
parameter, not a correctness invariant. -/
def SERVER_SYNC_DELAY : ℚ := 86400

/-- `DB_SYNC_DELAY` (declared in the header, outside `src/`).
Modelled from the spec: a fixed strictly positive duration ("durable flush
debounce should be short (seconds)"); the exact value is a deployment
parameter, not a correctness invariant. -/
def DB_SYNC_DELAY : ℚ := 5

/-- The per-element skip test of `do_get_top_dialogs`: an entity is skipped
iff it is a user that the oracle reports deleted, or the local user itself.
`deleted` models `ContactsManager::is_user_deleted` and `myid` the result
of `ContactsManager::get_my_id`; both are consulted only for `DialogType::User`. -/
def skipDialog (deleted : ℤ → Bool) (myid : ℤ) (d : DialogId) : Bool :=
  d.dtype = DialogType.User && (deleted d.id || myid == d.id)

/-- The result-building loop of `do_get_top_dialogs` (lines 243-260):
walk the candidate ids, skip filtered users, push the rest, and stop as
soon as the result size equals `limit` (the size test runs after each
push, so it never fires when `limit = 0`). -/
def getTopGo (deleted : ℤ → Bool) (myid : ℤ) (limit : ℕ) : ℕ → List DialogId → List DialogId
  | _, [] => []
  | size, d :: rest =>
    if skipDialog deleted myid d then getTopGo deleted myid limit size rest
    else if size + 1 = limit then [d]
    else d :: getTopGo deleted myid limit (size + 1) rest

/-- `TopDialogManager::do_get_top_dialogs` (lines 231-265): the list of
dialog ids eventually delivered to the query's promise, as a function of
the category's current entries, the requested limit, and the external
deleted/self oracle.  (The asynchronous `load_dialogs` batch-resolve is
external; the delivered list is computed exactly by this loop.) -/
def do_get_top_dialogs (deleted : ℤ → Bool) (myid : ℤ) (qlimit : ℕ) (td : TopDialogs) : List DialogId :=
  let limit := min qlimit (min MAX_TOP_DIALOGS_LIMIT td.dialogs.length)
  getTopGo deleted myid limit 0 (td.dialogs.map (fun x => x.dialog_id))

/-- `TopDialogManager::normalize_rating` (lines 219-229): for every
category, divide all ratings by `current_rating_add(rating_timestamp)`,
advance `rating_timestamp` to the current server time `st`, and mark the
category dirty; then set the durable sync state to `None`.
`f st ts` stands for `rating_add(st, ts)`. -/
def normalize_category (f : ℚ → ℚ → ℚ) (st : ℚ) (td : TopDialogs) : TopDialogs :=
  let div_by := f st td.rating_timestamp
  { is_dirty := true,
    rating_timestamp := st,
    dialogs := td.dialogs.map (fun d => { d with rating := d.rating / div_by }) }

/-- See `normalize_category`. -/
def normalize_rating (f : ℚ → ℚ → ℚ) (st : ℚ) (s : MgrState) : MgrState :=
  { s with
    by_category := s.by_category.map (normalize_category f st),
    db_sync_state := SyncState.None }

/-- `TopDialogManager::do_save_top_dialogs` (lines 350-366): write every
dirty category's snapshot to the durable store (the write itself is
external), clearing its dirty flag; then set the durable sync state to
`Ok` and clear `first_unsync_change`. -/
def do_save_top_dialogs (s : MgrState) : MgrState :=
  { s with
    by_category :=
      s.by_category.map (fun td => if td.is_dirty then { td with is_dirty := false } else td),
    db_sync_state := SyncState.Ok,
    first_unsync_change := none }

/-- Result of one `loop()` invocation: the new state, whether the remote
fetch was issued (`do_get_top_peers`), whether the durable flush ran
(`do_save_top_dialogs`), and the re-armed wake time (`none` = cancel). -/
structure LoopResult where
  state : MgrState
  did_fetch : Bool
  did_flush : Bool
  wakeup : Option ℚ
  deriving DecidableEq, Repr

/-- `Timestamp::relax`: keep the earlier of two optional deadlines. -/
def relaxOpt : Option ℚ → Option ℚ → Option ℚ
  | w, none => w
  | none, some t => some t
  | some u, some t => some (min u t)

/-- Server-sync section of `loop` (lines 423-438): while the remote state
is `Ok`, compute `server_sync_timeout = last_server_sync + SERVER_SYNC_DELAY`
and demote to `None` when it has elapsed (`t ≤ now` models
`is_in_past()`); then either keep the timeout as a wake deadline, or — if
the state is `None` and the first-sync signal was received — promote to
`Pending` and issue the fetch (`do_get_top_peers`, recorded as the middle
`Bool`). -/
def loop_server_sync (now : ℚ) (s1 : MgrState) : MgrState × Bool × Option ℚ :=
  let serverTimeout : Option ℚ :=
    if s1.server_sync_state = SyncState.Ok then some (s1.last_server_sync + SERVER_SYNC_DELAY)
    else none
  let s2 :=
    if s1.server_sync_state = SyncState.Ok ∧ s1.last_server_sync + SERVER_SYNC_DELAY ≤ now then
      { s1 with server_sync_state := SyncState.None }
    else s1
  if s2.server_sync_state = SyncState.Ok then (s2, false, serverTimeout)
  else if s2.server_sync_state = SyncState.None ∧ s2.was_first_sync = true then
    ({ s2 with server_sync_state := SyncState.Pending }, true, none)
  else (s2, false, none)

/-- Db-sync section of `loop` (lines 440-457): while the durable state is
`Ok` and an unsynced change is pending, compute
`db_sync_timeout = first_unsync_change + DB_SYNC_DELAY` and demote to
`None` when it has elapsed; then either keep the timeout as a wake
deadline, or — if the durable state is `None` and the remote state is
`Ok` — run `do_save_top_dialogs` (recorded as the middle `Bool`). -/
def loop_db_sync (now : ℚ) (s3 : MgrState) : MgrState × Bool × Option ℚ :=
  let dbTimeout : Option ℚ :=
    if s3.db_sync_state = SyncState.Ok then
      match s3.first_unsync_change with
      | some fc => some (fc + DB_SYNC_DELAY)
      | none => none
    else none
  let s4 :=
    match s3.first_unsync_change with
    | some fc =>
      if s3.db_sync_state = SyncState.Ok ∧ fc + DB_SYNC_DELAY ≤ now then
        { s3 with db_sync_state := SyncState.None }
      else s3
    | none => s3
  if s4.db_sync_state = SyncState.Ok then (s4, false, dbTimeout)
  else if s4.db_sync_state = SyncState.None then
    if s4.server_sync_state = SyncState.Ok then (do_save_top_dialogs s4, true, none)
    else (s4, false, none)
  else (s4, false, none)

/-- `TopDialogManager::loop` (lines 411-466).  `now` models both
`Timestamp::now` and the `is_in_past()` checks (a deadline `t` is in the
past iff `t ≤ now`).  Draining the pending `get_top_dialogs` queue only
answers promises from current state via `do_get_top_dialogs` (modelled
separately) and clears the queue; it mutates no other field.  The final
wake deadline is the earlier of the two sections' deadlines (`none` =
cancel the timer). -/
def loop (now : ℚ) (s0 : MgrState) : LoopResult :=
  if s0.is_active = false then ⟨s0, false, false, none⟩
  else
    let s1 := { s0 with pending_get_top_dialogs := [] }
    let srv := loop_server_sync now s1
    let db := loop_db_sync now srv.1
    ⟨db.1, srv.2.1, db.2.1, relaxOpt srv.2.2 db.2.2⟩

/-- The three shapes of a `contacts_getTopPeers` response as seen by
`on_result`: a transport/protocol error, `contacts_topPeersNotModified`,
or a full `contacts_topPeers` payload (per-category replacement lists). -/
inductive FetchResult
  | fetchError
  | notModified
  | topPeers (cats : List (Fin 6 × List TopDialog))
  deriving DecidableEq, Repr

/-- The category-replacement loop of `on_result` (lines 332-346): for each
category present in the response, mark it dirty and wholesale-replace its
entries. -/
def apply_top_peers (cats : List (Fin 6 × List TopDialog)) (s : MgrState) : MgrState :=
  cats.foldl
    (fun s p =>
      { s with
        by_category :=
          modifyAt p.1.val (fun td => { td with is_dirty := true, dialogs := p.2 })
            s.by_category })
    s

/-- `TopDialogManager::on_result` (lines 304-348) for the main fetch
callback (link token ≠ 1; the token-1 reset-rating callback returns
immediately).  Regardless of the response's shape it first runs
`normalize_rating` (with server time `st`), sets `last_server_sync := mt`
(`Timestamp::now`), sets the remote sync state to `Ok`, and writes the
`top_dialogs_ts` key (external); only then does it inspect the response:
errors and `notModified` stop there, a full payload replaces the affected
categories and sets the durable sync state to `None`.  The `SCOPE_EXIT`
then runs `loop()`. -/
def on_result (f : ℚ → ℚ → ℚ) (st mt : ℚ) (r : FetchResult) (s : MgrState) : LoopResult :=
  let s1 := normalize_rating f st s
  let s2 := { s1 with last_server_sync := mt, server_sync_state := SyncState.Ok }
  match r with
  | FetchResult.fetchError => loop mt s2
  | FetchResult.notModified => loop mt s2
  | FetchResult.topPeers cats =>
    loop mt { apply_top_peers cats s2 with db_sync_state := SyncState.None }

/-- One token of a serialized snapshot.  Modelled from the spec: the
`td::store`/`td::parse` primitives live outside `src/`; the spec fixes the
layout as "`rating_timestamp` (float64) followed by entry count and, for
each entry, `entity_reference` then `rating` (float64)", so the byte
stream is abstracted as a token stream with one token per stored field. -/
inductive SnapToken
  | num (x : ℚ)
  | cnt (n : ℕ)
  | ref (d : DialogId)
  deriving DecidableEq, Repr

/-- `store(TopDialog)` (lines 190-195): dialog id then rating. -/
def storeTopDialog (t : TopDialog) : List SnapToken :=
  [SnapToken.ref t.dialog_id, SnapToken.num t.rating]

/-- `store(TopDialogs)` (lines 204-209): rating timestamp, then the
dialogs vector (count followed by the elements, the vector layout of
`td::store`, modelled from the spec's "entry count and, for each
entry"). -/
def storeTopDialogs (t : TopDialogs) : List SnapToken :=
  SnapToken.num t.rating_timestamp :: SnapToken.cnt t.dialogs.length ::
    (t.dialogs.map storeTopDialog).flatten

/-- `parse(TopDialog)` (lines 183-188); fails on truncated or mis-shaped
input. -/
def parseTopDialog : List SnapToken → Option (TopDialog × List SnapToken)
  | SnapToken.ref d :: SnapToken.num r :: rest => some ({ dialog_id := d, rating := r }, rest)
  | _ => none

/-- Parse `n` consecutive entries (the element loop of the vector
parser). -/
def parseDialogList : ℕ → List SnapToken → Option (List TopDialog × List SnapToken)
  | 0, rest => some ([], rest)
  | n + 1, toks =>
    match parseTopDialog toks with
    | some (d, rest) => (parseDialogList n rest).map (fun p => (d :: p.1, p.2))
    | none => none

/-- `parse(TopDialogs)` (lines 197-202) under `log_event_parse`, which
requires the input to be fully consumed; yields the decoded
`(rating_timestamp, dialogs)` pair or a parse error (`none`). -/
def parseTopDialogs (toks : List SnapToken) : Option (ℚ × List TopDialog) :=
  match toks with
  | SnapToken.num ts :: SnapToken.cnt n :: rest =>
    match parseDialogList n rest with
    | some (l, []) => some (ts, l)
    | _ => none
  | _ => none

/-- Load one category's snapshot during `start_up` (lines 390-395): an
absent (empty) value leaves the category empty with its dirty flag
cleared; a nonempty value must decode, else the load fails.
`log_event_parse(top_dialogs, value).ensure()` in the source aborts the
whole process on a parse error (`Status::ensure` is fatal on error;
it lives in `td/utils/Status.h`, outside `src/`), modelled by propagating
`none`. -/
def loadCat (toks : List SnapToken) : Option TopDialogs :=
  if toks = [] then some { is_dirty := false, rating_timestamp := 0, dialogs := [] }
  else
    match parseTopDialogs toks with
    | some (ts, l) => some { is_dirty := false, rating_timestamp := ts, dialogs := l }
    | none => none

/-- The per-category load loop of `start_up` (lines 385-396), over the
listed categories in order; fails (process abort) as soon as one
category's nonempty snapshot fails to decode. -/
def loadCatsList (store : Fin 6 → List SnapToken) : List (Fin 6) → Option (List TopDialogs)
  | [] => some []
  | i :: is =>
    match loadCat (store i) with
    | none => none
    | some td =>
      match loadCatsList store is with
      | none => none
      | some tds => some (td :: tds)

/-- See `loadCatsList`: the load loop over the six categories in order. -/
def loadCats (store : Fin 6 → List SnapToken) : Option (List TopDialogs) :=
  loadCatsList store (List.finRange 6)

/-- `TopDialogManager::start_up` (lines 368-404).  Inputs: whether the
chat-info database is enabled, the stored `top_dialogs_ts` value (decoded
decimal, `none` when the key is absent/empty), the current system clock
`sys` and monotonic clock `now`, the current server time `st`, the
abstract decay function `f`, and the per-category stored snapshots.
Returns `none` when startup aborts on a malformed snapshot.  The
`erase_by_prefix` call of the inactive branch and the `wait_first_sync`
registration are external. -/
def start_up (useChatInfoDb : Bool) (tsStored : Option ℚ) (sys now st : ℚ)
    (f : ℚ → ℚ → ℚ) (store : Fin 6 → List SnapToken) : Option MgrState :=
  if useChatInfoDb = false then some { is_active := false }
  else
    let s : MgrState := { is_active := true }
    let s :=
      match tsStored with
      | none => s
      | some t =>
        let lss := now + (t - sys)
        if lss ≤ now then
          { s with last_server_sync := lss, server_sync_state := SyncState.Ok }
        else { s with last_server_sync := lss }
    match loadCats store with
    | none => none
    | some cats =>
      let s := { s with by_category := cats }
      let s := normalize_rating f st s
      let s := { s with db_sync_state := SyncState.Ok }
      some (loop now s).state

/-- `TopDialogManager::rating_add` (lines 211-213), over the reals:
`exp((now - rating_timestamp) / rating_e_decay)`. -/
noncomputable def rating_add (rating_e_decay : ℝ) (now rating_timestamp : ℝ) : ℝ :=
  Real.exp ((now - rating_timestamp) / rating_e_decay)

/-- "`a` ranks at least as high as `b`": ratings non-increasing left to
right. -/
def RankGE (a b : TopDialog) : Prop := b.rating ≤ a.rating

/-- "`a` ranks strictly higher than `b`": ratings strictly decreasing
left to right. -/
def RankGT (a b : TopDialog) : Prop := b.rating < a.rating

instance : DecidableRel RankGE := fun a b => inferInstanceAs (Decidable (b.rating ≤ a.rating))

instance : DecidableRel RankGT := fun a b => inferInstanceAs (Decidable (b.rating < a.rating))

/-- Sorted non-strictly descending by rating. -/
def WeakSortedDesc (l : List TopDialog) : Prop := List.Chain' RankGE l

/-- Sorted strictly descending by rating (the order the spec claims). -/
def StrictSortedDesc (l : List TopDialog) : Prop := List.Chain' RankGT l

instance (l : List TopDialog) : Decidable (WeakSortedDesc l) :=
  inferInstanceAs (Decidable (List.Chain' RankGE l))

instance (l : List TopDialog) : Decidable (StrictSortedDesc l) :=
  inferInstanceAs (Decidable (List.Chain' RankGT l))

theorem sorted_all_le (x : TopDialog) (suf : List TopDialog)
    (h : WeakSortedDesc (x :: suf)) : ∀ z ∈ suf, z.rating ≤ x.rating := by
  induction suf generalizing x with
  | nil => intro z hz; cases hz
  | cons b l ih =>
    intro z hz
    have hxb : b.rating ≤ x.rating := (List.chain'_cons.mp h).1
    rcases List.mem_cons.mp hz with rfl | hz'
    · exact hxb
    · exact le_trans (ih b (List.chain'_cons.mp h).2 z hz') hxb

theorem sorted_remove_mid (pre : List TopDialog) (x : TopDialog) (suf : List TopDialog)
    (h : WeakSortedDesc (pre ++ x :: suf)) : WeakSortedDesc (pre ++ suf) := by
  rcases List.chain'_split.mp h with ⟨h1, h2⟩
  cases suf with
  | nil => simpa using h1.left_of_append
  | cons b suf' =>
    refine List.chain'_split.mpr ⟨?_, h2.tail⟩
    have hxb : RankGE x b := (List.chain'_cons.mp h2).1
    rcases List.chain'_append.mp h1 with ⟨hpre, -, hlast⟩
    refine List.chain'_append.mpr ⟨hpre, List.chain'_singleton b, ?_⟩
    intro p hp y hy
    simp only [List.head?_cons, Option.mem_def, Option.some.injEq] at hy
    subst hy
    have hpx : RankGE p x := hlast p hp x (by simp)
    exact le_trans hxb hpx

theorem bubble_sorted (x : TopDialog) :
    ∀ (revPre suf : List TopDialog),
      WeakSortedDesc (revPre.reverse ++ suf) →
      (∀ z ∈ suf, z.rating ≤ x.rating) →
      WeakSortedDesc (bubble x revPre suf) := by
  intro revPre
  induction revPre with
  | nil =>
    intro suf hws hle
    simp only [List.reverse_nil, List.nil_append] at hws
    simp only [bubble]
    exact hws.cons' fun y hy => hle y (List.mem_of_mem_head? hy)
  | cons y ys ih =>
    intro suf hws hle
    rw [List.reverse_cons, List.append_assoc, List.singleton_append] at hws
    by_cases hxy : x.rating < y.rating
    · simp only [bubble, if_pos hxy]
      rw [List.reverse_cons, List.append_assoc, List.singleton_append]
      rcases List.chain'_split.mp hws with ⟨h1, h2⟩
      refine List.chain'_split.mpr ⟨h1, ?_⟩
      refine List.chain'_cons.mpr ⟨le_of_lt hxy, ?_⟩
      exact h2.tail.cons' fun z hz => hle z (List.mem_of_mem_head? hz)
    · simp only [bubble, if_neg hxy]
      refine ih (y :: suf) hws ?_
      intro z hz
      rcases List.mem_cons.mp hz with rfl | hz'
      · exact le_of_not_lt hxy
      · exact hle z hz'

theorem splitAtDialog_eq (d : DialogId) :
    ∀ (l pre : List TopDialog) (x : TopDialog) (suf : List TopDialog),
      splitAtDialog d l = some (pre, x, suf) → l = pre ++ x :: suf ∧ x.dialog_id = d := by
  intro l
  induction l with
  | nil => intro pre x suf h; cases h
  | cons a as ih =>
    intro pre x suf h
    simp only [splitAtDialog] at h
    by_cases ha : a.dialog_id = d
    · rw [if_pos ha] at h
      cases h
      exact ⟨rfl, ha⟩
    · rw [if_neg ha] at h
      cases hsplit : splitAtDialog d as with
      | none => rw [hsplit] at h; cases h
      | some p =>
        rw [hsplit] at h
        simp only [Option.map_some', Option.some.injEq, Prod.mk.injEq] at h
        obtain ⟨h1, h2, h3⟩ := h
        rcases ih p.1 p.2.1 p.2.2 hsplit with ⟨heq, hid⟩
        subst h1
        subst h2
        subst h3
        exact ⟨by simp [heq], hid⟩

/-- One `on_dialog_used` mutation keeps a category's entry list sorted
non-strictly descending, provided every decay increment is positive (in
the source the increment is `exp(...)`, always positive). -/
theorem on_dialog_used_td_sorted (f : ℚ → ℚ → ℚ) (hf : ∀ a b, 0 < f a b)
    (d : DialogId) (date : ℚ) (td : TopDialogs)
    (h : WeakSortedDesc td.dialogs) :
    WeakSortedDesc (on_dialog_used_td f d date td).dialogs := by
  simp only [on_dialog_used_td]
  cases hsplit : splitAtDialog d td.dialogs with
  | none =>
    refine bubble_sorted _ td.dialogs.reverse [] ?_ ?_
    · simpa using h
    · intro z hz; cases hz
  | some p =>
    obtain ⟨pre, x, suf⟩ := p
    rcases splitAtDialog_eq d td.dialogs pre x suf hsplit with ⟨heq, -⟩
    rw [heq] at h
    refine bubble_sorted _ pre.reverse suf ?_ ?_
    · rw [List.reverse_reverse]
      exact sorted_remove_mid pre x suf h
    · intro z hz
      have hx : WeakSortedDesc (x :: suf) := (List.chain'_split.mp h).2
      have hzx := sorted_all_le x suf hx z hz
      have hd : 0 < f date td.rating_timestamp := hf date td.rating_timestamp
      calc z.rating ≤ x.rating := hzx
        _ ≤ x.rating + f date td.rating_timestamp := by linarith

theorem getTopGo_sublist (deleted : ℤ → Bool) (myid : ℤ) (limit : ℕ) :
    ∀ (l : List DialogId) (size : ℕ), List.Sublist (getTopGo deleted myid limit size l) l := by
  intro l
  induction l with
  | nil => intro size; simp [getTopGo]
  | cons d rest ih =>
    intro size
    simp only [getTopGo]
    by_cases hs : skipDialog deleted myid d = true
    · rw [if_pos hs]
      exact List.Sublist.cons d (ih size)
    · rw [if_neg hs]
      by_cases hl : size + 1 = limit
      · rw [if_pos hl]
        exact List.Sublist.cons₂ d (List.nil_sublist rest)
      · rw [if_neg hl]
        exact List.Sublist.cons₂ d (ih (size + 1))

theorem getTopGo_length (deleted : ℤ → Bool) (myid : ℤ) (limit : ℕ) :
    ∀ (l : List DialogId) (size : ℕ), size < limit →
      (getTopGo deleted myid limit size l).length ≤ limit - size := by
  intro l
  induction l with
  | nil => intro size _; simp [getTopGo]
  | cons d rest ih =>
    intro size h
    simp only [getTopGo]
    by_cases hs : skipDialog deleted myid d = true
    · rw [if_pos hs]
      exact ih size h
    · rw [if_neg hs]
      by_cases hl : size + 1 = limit
      · rw [if_pos hl]
        simp only [List.length_singleton]
        omega
      · rw [if_neg hl]
        have h2 : size + 1 < limit := by omega
        have h3 := ih (size + 1) h2
        simp only [List.length_cons]
        omega

theorem getTopGo_mem (deleted : ℤ → Bool) (myid : ℤ) (limit : ℕ) :
    ∀ (l : List DialogId) (size : ℕ) (d : DialogId),
      d ∈ getTopGo deleted myid limit size l → skipDialog deleted myid d = false := by
  intro l
  induction l with
  | nil => intro size d h; simp [getTopGo] at h
  | cons a rest ih =>
    intro size d h
    simp only [getTopGo] at h
    by_cases hs : skipDialog deleted myid a = true
    · rw [if_pos hs] at h
      exact ih size d h
    · rw [if_neg hs] at h
      by_cases hl : size + 1 = limit
      · rw [if_pos hl] at h
        rcases List.mem_singleton.mp h with rfl
        exact Bool.eq_false_iff.mpr hs
      · rw [if_neg hl] at h
        rcases List.mem_cons.mp h with rfl | h'
        · exact Bool.eq_false_iff.mpr hs
        · exact ih (size + 1) d h'

theorem getTopGo_noskip (deleted : ℤ → Bool) (myid : ℤ) (limit : ℕ) :
    ∀ (l : List DialogId) (size : ℕ),
      (∀ d ∈ l, skipDialog deleted myid d = false) →
      getTopGo deleted myid limit size l =
        if limit ≤ size then l else l.take (limit - size) := by
  intro l
  induction l with
  | nil => intro size _; simp [getTopGo]
  | cons a rest ih =>
    intro size hns
    have ha : skipDialog deleted myid a = false := hns a (List.mem_cons_self a rest)
    have hrest : ∀ d ∈ rest, skipDialog deleted myid d = false := fun d hd =>
      hns d (List.mem_cons_of_mem a hd)
    simp only [getTopGo, ha, Bool.false_eq_true, if_false]
    by_cases hl : size + 1 = limit
    · rw [if_pos hl]
      have : ¬ limit ≤ size := by omega
      rw [if_neg this]
      have h1 : limit - size = 1 := by omega
      rw [h1]
      rfl
    · rw [if_neg hl]
      rw [ih (size + 1) hrest]
      by_cases h2 : limit ≤ size
      · have h3 : limit ≤ size + 1 := by omega
        rw [if_pos h2, if_pos h3]
      · have h3 : ¬ limit ≤ size + 1 := by omega
        rw [if_neg h2, if_neg h3]
        have h4 : limit - size = (limit - (size + 1)) + 1 := by omega
        rw [h4]
        rfl

theorem modifyAt_getD (g : TopDialogs → TopDialogs) :
    ∀ (l : List TopDialogs) (i : ℕ), i < l.length →
      (modifyAt i g l).getD i default = g (l.getD i default) := by
  intro l
  induction l with
  | nil => intro i h; simp at h
  | cons x xs ih =>
    intro i h
    cases i with
    | zero => rfl
    | succ n =>
      simp only [modifyAt, List.getD_cons_succ]
      exact ih n (by simpa using h)

theorem getD_default_of_le (l : List TopDialogs) (i : ℕ) (h : l.length ≤ i) :
    l.getD i default = default := by
  simp [List.getD_eq_getElem?_getD, List.getElem?_eq_none h]

/-- Forget a category's dirty flag, keeping its persistent content
(`rating_timestamp` and entries). -/
def stripDirty (td : TopDialogs) : ℚ × List TopDialog := (td.rating_timestamp, td.dialogs)

theorem do_save_strip (s : MgrState) :
    (do_save_top_dialogs s).by_category.map stripDirty = s.by_category.map stripDirty := by
  simp only [do_save_top_dialogs, List.map_map]
  have h : stripDirty ∘ (fun td => if td.is_dirty = true then { td with is_dirty := false } else td)
      = stripDirty := by
    funext td
    by_cases htd : td.is_dirty = true <;> simp [stripDirty, htd]
  rw [h]

theorem loop_server_sync_state_cases (now : ℚ) (s : MgrState) :
    (loop_server_sync now s).1 = s ∨
      (loop_server_sync now s).1 = { s with server_sync_state := SyncState.None } ∨
      (loop_server_sync now s).1 = { s with server_sync_state := SyncState.Pending } := by
  simp only [loop_server_sync]
  split_ifs <;> simp

theorem loop_db_sync_state_cases (now : ℚ) (s : MgrState) :
    (loop_db_sync now s).1 = s ∨
      (loop_db_sync now s).1 = { s with db_sync_state := SyncState.None } ∨
      (loop_db_sync now s).1 = do_save_top_dialogs s ∨
      (loop_db_sync now s).1 = do_save_top_dialogs { s with db_sync_state := SyncState.None } := by
  cases hfc : s.first_unsync_change with
  | none =>
    simp only [loop_db_sync, hfc]
    split_ifs <;> simp
  | some fc =>
    by_cases hdem : s.db_sync_state = SyncState.Ok ∧ fc + DB_SYNC_DELAY ≤ now
    · simp only [loop_db_sync, hfc, if_pos hdem]
      split_ifs <;> simp
    · simp only [loop_db_sync, hfc, if_neg hdem]
      split_ifs <;> simp

theorem loop_server_sync_by_category (now : ℚ) (s : MgrState) :
    (loop_server_sync now s).1.by_category = s.by_category := by
  rcases loop_server_sync_state_cases now s with h | h | h <;> rw [h]

theorem loop_server_sync_last (now : ℚ) (s : MgrState) :
    (loop_server_sync now s).1.last_server_sync = s.last_server_sync := by
  rcases loop_server_sync_state_cases now s with h | h | h <;> rw [h]

theorem loop_db_sync_strip (now : ℚ) (s : MgrState) :
    (loop_db_sync now s).1.by_category.map stripDirty = s.by_category.map stripDirty := by
  rcases loop_db_sync_state_cases now s with h | h | h | h <;> rw [h] <;>
    apply do_save_strip

theorem loop_db_sync_server (now : ℚ) (s : MgrState) :
    (loop_db_sync now s).1.server_sync_state = s.server_sync_state := by
  rcases loop_db_sync_state_cases now s with h | h | h | h <;> rw [h] <;> rfl

theorem loop_db_sync_last (now : ℚ) (s : MgrState) :
    (loop_db_sync now s).1.last_server_sync = s.last_server_sync := by
  rcases loop_db_sync_state_cases now s with h | h | h | h <;> rw [h] <;> rfl

theorem loop_strip (now : ℚ) (s : MgrState) :
    ((loop now s).state).by_category.map stripDirty = s.by_category.map stripDirty := by
  simp only [loop]
  split
  · rfl
  · rw [loop_db_sync_strip, loop_server_sync_by_category]

theorem loop_last (now : ℚ) (s : MgrState) :
    ((loop now s).state).last_server_sync = s.last_server_sync := by
  simp only [loop]
  split
  · rfl
  · rw [loop_db_sync_last, loop_server_sync_last]

theorem loop_server_sync_keep_ok (now : ℚ) (s : MgrState)
    (hok : s.server_sync_state = SyncState.Ok)
    (hnt : ¬ s.last_server_sync + SERVER_SYNC_DELAY ≤ now) :
    (loop_server_sync now s).1.server_sync_state = SyncState.Ok := by
  simp only [loop_server_sync]
  have h2 : ¬ (s.server_sync_state = SyncState.Ok ∧ s.last_server_sync + SERVER_SYNC_DELAY ≤ now) := by
    rintro ⟨-, h⟩; exact hnt h
  rw [if_neg h2, if_pos hok]
  exact hok

theorem loop_server_ok (now : ℚ) (s : MgrState)
    (hok : s.server_sync_state = SyncState.Ok)
    (hnt : ¬ s.last_server_sync + SERVER_SYNC_DELAY ≤ now) :
    ((loop now s).state).server_sync_state = SyncState.Ok := by
  simp only [loop]
  split
  · exact hok
  · rw [loop_db_sync_server]
    exact loop_server_sync_keep_ok now _ hok hnt

theorem parseDialogList_append (rest : List SnapToken) :
    ∀ l : List TopDialog,
      parseDialogList l.length ((l.map storeTopDialog).flatten ++ rest) = some (l, rest) := by
  intro l
  induction l with
  | nil => simp [parseDialogList]
  | cons d ds ih =>
    simp only [List.map_cons, List.flatten_cons, List.length_cons, List.append_assoc]
    simp only [storeTopDialog, List.cons_append, parseDialogList, parseTopDialog]
    rw [List.nil_append, ih]
    rfl

theorem storeTopDialogs_roundtrip (t : TopDialogs) :
    parseTopDialogs (storeTopDialogs t) = some (t.rating_timestamp, t.dialogs) := by
  simp only [storeTopDialogs, parseTopDialogs]
  have h := parseDialogList_append [] t.dialogs
  rw [List.append_nil] at h
  rw [h]

theorem loadCat_none_iff (toks : List SnapToken) :
    loadCat toks = none ↔ toks ≠ [] ∧ parseTopDialogs toks = none := by
  by_cases he : toks = []
  · simp [loadCat, he]
  · rw [loadCat, if_neg he]
    cases hp : parseTopDialogs toks with
    | none => simp [he, hp]
    | some p => simp [he, hp]

theorem loadCatsList_none_iff (store : Fin 6 → List SnapToken) :
    ∀ l : List (Fin 6), loadCatsList store l = none ↔ ∃ i ∈ l, loadCat (store i) = none := by
  intro l
  induction l with
  | nil => simp [loadCatsList]
  | cons i is ih =>
    simp only [loadCatsList, List.mem_cons]
    cases hi : loadCat (store i) with
    | none =>
      constructor
      · intro _; exact ⟨i, Or.inl rfl, hi⟩
      · intro _; rfl
    | some td =>
      cases his : loadCatsList store is with
      | none =>
        rcases ih.mp his with ⟨j, hj, hjn⟩
        constructor
        · intro _; exact ⟨j, Or.inr hj, hjn⟩
        · intro _; rfl
      | some tds =>
        constructor
        · intro h; cases h
        · rintro ⟨j, hj | hj, hjn⟩
          · subst hj; rw [hi] at hjn; cases hjn
          · rw [ih.mpr ⟨j, hj, hjn⟩] at his; cases his

theorem loadCats_none_iff (store : Fin 6 → List SnapToken) :
    loadCats store = none ↔ ∃ i : Fin 6, store i ≠ [] ∧ parseTopDialogs (store i) = none := by
  rw [loadCats, loadCatsList_none_iff]
  constructor
  · rintro ⟨i, -, hn⟩
    exact ⟨i, (loadCat_none_iff (store i)).mp hn⟩
  · rintro ⟨i, hne, hp⟩
    exact ⟨i, List.mem_finRange i, (loadCat_none_iff (store i)).mpr ⟨hne, hp⟩⟩

theorem start_up_none_iff (useChatInfoDb : Bool) (tsStored : Option ℚ) (sys now st : ℚ)
    (f : ℚ → ℚ → ℚ) (store : Fin 6 → List SnapToken) :
    start_up useChatInfoDb tsStored sys now st f store = none ↔
      useChatInfoDb = true ∧ ∃ i : Fin 6, store i ≠ [] ∧ parseTopDialogs (store i) = none := by
  by_cases hdb : useChatInfoDb = false
  · subst hdb
    simp [start_up]
  · have hdb' : useChatInfoDb = true := by revert hdb; cases useChatInfoDb <;> simp
    subst hdb'
    rw [start_up, if_neg (by simp)]
    cases hload : loadCats store with
    | none =>
      simp only [hload]
      cases tsStored with
      | none => simpa using (loadCats_none_iff store).mp hload
      | some t =>
        by_cases hp : now + (t - sys) ≤ now <;>
          simp [hp, (loadCats_none_iff store).mp hload]
    | some cats =>
      simp only [hload]
      cases tsStored with
      | none =>
        simp only []
        constructor
        · intro h; cases h
        · rintro ⟨-, i, hne, hp⟩
          have := (loadCats_none_iff store).mpr ⟨i, hne, hp⟩
          rw [hload] at this; cases this
      | some t =>
        by_cases hp : now + (t - sys) ≤ now <;>
          · simp only [hp, if_pos, if_neg]
            constructor
            · intro h
              simp at h
            · rintro ⟨-, i, hne, hpn⟩
              have := (loadCats_none_iff store).mpr ⟨i, hne, hpn⟩
              rw [hload] at this; cases this

/-- C6: the decay function satisfies
`rating_add(t, t0) = exp((t - t0) / decay_constant)` for strictly positive
`decay_constant`; `rating_add(t0, t0) = 1`; it is strictly increasing in
`t`; and it is strictly decreasing in the decay constant for `t > t0`. -/
theorem claim_C6_rating_add (c c' t0 t t1 t2 : ℝ) (hc : 0 < c) (hcc' : c < c') :
    rating_add c t t0 = Real.exp ((t - t0) / c) ∧
      rating_add c t0 t0 = 1 ∧
      (t1 < t2 → rating_add c t1 t0 < rating_add c t2 t0) ∧
      (t0 < t → rating_add c' t t0 < rating_add c t t0) := by
  refine ⟨rfl, ?_, ?_, ?_⟩
  · simp [rating_add]
  · intro h
    apply Real.exp_lt_exp.mpr
    apply div_lt_div_of_pos_right ?_ hc
    linarith
  · intro h
    apply Real.exp_lt_exp.mpr
    exact div_lt_div_of_pos_left (by linarith) hc hcc'

/-- Witness for C6 at `c = 1`, `c' = 2`, `t0 = 0`, `t = 1`, `t1 = 0`,
`t2 = 1`. -/
theorem claim_C6_rating_add_witness :
    (0:ℝ) < 1 ∧ (1:ℝ) < 2 ∧
      (rating_add 1 1 0 = Real.exp ((1 - 0) / 1) ∧
        rating_add 1 0 0 = 1 ∧
        ((0:ℝ) < 1 → rating_add 1 0 0 < rating_add 1 1 0) ∧
        ((0:ℝ) < 1 → rating_add 2 1 0 < rating_add 1 1 0)) :=
  ⟨by norm_num, by norm_num, claim_C6_rating_add 1 2 0 1 0 1 (by norm_num) (by norm_num)⟩

/-- C7: the snapshot codec round-trips: decoding the encoding of any
Category Ranking Set yields its `rating_timestamp` and entry list exactly
(for any number of entries and any finite rational ratings, including 0
and arbitrarily large or small values). -/
theorem claim_C7_codec_roundtrip (t : TopDialogs) :
    parseTopDialogs (storeTopDialogs t) = some (t.rating_timestamp, t.dialogs) :=
  storeTopDialogs_roundtrip t

/-- C3 (amended): for every sequence of `record_usage` events applied to a
category whose entry list is sorted non-strictly descending (in particular
the empty initial list), the list is sorted non-strictly descending after
every call, provided every decay increment is positive (the source's
increment is `exp(...) > 0`).  Strict descending order does not hold: see
the counterexample. -/
theorem claim_C3_record_usage_sorted (f : ℚ → ℚ → ℚ) (hf : ∀ a b, 0 < f a b)
    (td : TopDialogs) (h : WeakSortedDesc td.dialogs) (ops : List (DialogId × ℚ)) :
    WeakSortedDesc ((ops.foldl (fun t p => on_dialog_used_td f p.1 p.2 t) td).dialogs) := by
  induction ops generalizing td with
  | nil => exact h
  | cons p ps ih =>
    exact ih (on_dialog_used_td f p.1 p.2 td) (on_dialog_used_td_sorted f hf p.1 p.2 td h)

/-- Witness for C3's amended theorem: one usage event on an empty Group
category. -/
theorem claim_C3_record_usage_sorted_witness :
    (∀ a b : ℚ, 0 < (fun _ _ => (1:ℚ)) a b) ∧
      WeakSortedDesc (({} : TopDialogs)).dialogs ∧
      WeakSortedDesc
        ((([({ dtype := DialogType.Chat, id := 5 }, (3:ℚ))] :
              List (DialogId × ℚ)).foldl
            (fun t p => on_dialog_used_td (fun _ _ => 1) p.1 p.2 t) {}).dialogs) :=
  ⟨fun _ _ => one_pos, List.chain'_nil,
    claim_C3_record_usage_sorted (fun _ _ => 1) (fun _ _ => one_pos) {} List.chain'_nil
      [({ dtype := DialogType.Chat, id := 5 }, 3)]⟩

/-- C3 counterexample: two different dialogs used at the same date on an
empty category (with `rating_timestamp = 0`) both end up with rating
exactly 1 — in the source the increment is `exp((0 - 0) / decay) = 1`,
matching the constant-one decay function used here at the only point where
it is evaluated — and the bubble swaps the new entry past its equal
predecessor, so the resulting list `[⟨dialog 2, 1⟩, ⟨dialog 1, 1⟩]` is not
strictly descending, refuting the claimed strict order. -/
theorem claim_C3_counterexample :
    (([({ dtype := DialogType.User, id := 1 }, (0:ℚ)),
        ({ dtype := DialogType.User, id := 2 }, (0:ℚ))] :
          List (DialogId × ℚ)).foldl
        (fun t p => on_dialog_used_td (fun _ _ => 1) p.1 p.2 t) {}).dialogs =
      [{ dialog_id := { dtype := DialogType.User, id := 2 }, rating := 1 },
        { dialog_id := { dtype := DialogType.User, id := 1 }, rating := 1 }] ∧
      ¬ StrictSortedDesc
        [{ dialog_id := { dtype := DialogType.User, id := 2 }, rating := 1 },
          { dialog_id := { dtype := DialogType.User, id := 1 }, rating := 1 }] := by
  constructor
  · norm_num [List.foldl, on_dialog_used_td, splitAtDialog, bubble]
  · intro hss
    have h1 := (List.chain'_cons.mp hss).1
    rw [RankGT] at h1
    exact absurd h1 (by norm_num)

/-- C8: `remove_dialog` is a no-op on the state when the entity is absent
from the category; when present, it removes exactly that entry (count
drops by exactly 1, the remaining entries keep their relative order),
marks the category dirty, and stamps `first_unsync_change` if it was
unset (keeping it otherwise). -/
theorem claim_C8_remove_dialog (now : ℚ) (c : Fin 6) (d : DialogId) (s : MgrState)
    (hact : s.is_active = true) :
    (splitAtDialog d (getCat s c).dialogs = none → remove_dialog now c d s = s) ∧
      (∀ pre x suf, splitAtDialog d (getCat s c).dialogs = some (pre, x, suf) →
        (getCat (remove_dialog now c d s) c).dialogs = pre ++ suf ∧
        (getCat (remove_dialog now c d s) c).dialogs.length + 1 = (getCat s c).dialogs.length ∧
        List.Sublist (getCat (remove_dialog now c d s) c).dialogs (getCat s c).dialogs ∧
        (getCat (remove_dialog now c d s) c).is_dirty = true ∧
        (remove_dialog now c d s).first_unsync_change = stampIfUnset now s.first_unsync_change) := by
  have hact' : ¬ s.is_active = false := by rw [hact]; simp
  constructor
  · intro h
    rw [remove_dialog, if_neg hact', h]
  · intro pre x suf h
    have hlt : c.val < s.by_category.length := by
      by_contra hge
      push_neg at hge
      have hdef : s.by_category.getD c.val default = default :=
        getD_default_of_le s.by_category c.val hge
      rw [getCat, hdef] at h
      cases h
    have hrw : remove_dialog now c d s =
        { s with
          by_category :=
            modifyAt c.val (fun td => { td with is_dirty := true, dialogs := pre ++ suf })
              s.by_category,
          first_unsync_change := stampIfUnset now s.first_unsync_change } := by
      rw [remove_dialog, if_neg hact', h]
    have hget : getCat (remove_dialog now c d s) c =
        { getCat s c with is_dirty := true, dialogs := pre ++ suf } := by
      rw [hrw, getCat, getCat]
      exact modifyAt_getD _ s.by_category c.val hlt
    rcases splitAtDialog_eq d (getCat s c).dialogs pre x suf h with ⟨heq, -⟩
    refine ⟨by rw [hget], ?_, ?_, by rw [hget], by rw [hrw]⟩
    · rw [hget, heq]
      simp only [List.length_append, List.length_cons]
      omega
    · rw [hget, heq]
      exact (List.sublist_cons_self x suf).append_left pre

/-- Concrete state exercising `remove_dialog`: category 0 holds users 1
and 2 with ratings 5 and 3. -/
def c8_state : MgrState :=
  { is_active := true,
    by_category :=
      [{ is_dirty := false, rating_timestamp := 0,
         dialogs := [{ dialog_id := { dtype := DialogType.User, id := 1 }, rating := 5 },
                     { dialog_id := { dtype := DialogType.User, id := 2 }, rating := 3 }] },
       {}, {}, {}, {}, {}],
    first_unsync_change := none }

/-- Witness for C8: removing user 2 from category 0 leaves `[user 1]` and
stamps `first_unsync_change`. -/
theorem claim_C8_remove_dialog_witness :
    (getCat (remove_dialog 7 0 { dtype := DialogType.User, id := 2 } c8_state) 0).dialogs =
        [{ dialog_id := { dtype := DialogType.User, id := 1 }, rating := 5 }] ∧
      (remove_dialog 7 0 { dtype := DialogType.User, id := 2 } c8_state).first_unsync_change =
        some 7 := by
  have h := claim_C8_remove_dialog 7 0 { dtype := DialogType.User, id := 2 } c8_state rfl
  have hsplit : splitAtDialog { dtype := DialogType.User, id := 2 } (getCat c8_state 0).dialogs =
      some ([{ dialog_id := { dtype := DialogType.User, id := 1 }, rating := 5 }],
        { dialog_id := { dtype := DialogType.User, id := 2 }, rating := 3 }, []) := rfl
  have h2 := h.2 _ _ _ hsplit
  exact ⟨by rw [h2.1]; rfl, by rw [h2.2.2.2.2]; rfl⟩

/-- C5 (amended): for a requested limit of at least 1, the query returns
at most `min(limit, MAX_TOP_DIALOGS_LIMIT, entries.len())` dialog ids, the
result is a subsequence of the category's entries in their current order,
and no returned user is reported deleted or is the local user.  (With
limit 0 the `result.size() == limit` check never fires and all filtered
entries are returned: see the counterexample.) -/
theorem claim_C5_get_top_bounds (deleted : ℤ → Bool) (myid : ℤ) (qlimit : ℕ)
    (td : TopDialogs) (hq : 1 ≤ qlimit) :
    (do_get_top_dialogs deleted myid qlimit td).length ≤
        min qlimit (min MAX_TOP_DIALOGS_LIMIT td.dialogs.length) ∧
      List.Sublist (do_get_top_dialogs deleted myid qlimit td)
        (td.dialogs.map (fun x => x.dialog_id)) ∧
      ∀ d ∈ do_get_top_dialogs deleted myid qlimit td,
        d.dtype = DialogType.User → deleted d.id = false ∧ myid ≠ d.id := by
  refine ⟨?_, ?_, ?_⟩
  · by_cases h0 : min qlimit (min MAX_TOP_DIALOGS_LIMIT td.dialogs.length) = 0
    · have hmax : MAX_TOP_DIALOGS_LIMIT = 30 := rfl
      have hlen : td.dialogs.length = 0 := by omega
      have hnil : td.dialogs.map (fun x => x.dialog_id) = [] := by
        have : td.dialogs = [] := List.length_eq_zero.mp hlen
        rw [this]; rfl
      simp [do_get_top_dialogs, hnil, getTopGo]
    · have hpos : 0 < min qlimit (min MAX_TOP_DIALOGS_LIMIT td.dialogs.length) :=
        Nat.pos_of_ne_zero h0
      have hb := getTopGo_length deleted myid
        (min qlimit (min MAX_TOP_DIALOGS_LIMIT td.dialogs.length))
        (td.dialogs.map (fun x => x.dialog_id)) 0 hpos
      simpa [do_get_top_dialogs] using hb
  · simpa [do_get_top_dialogs] using
      getTopGo_sublist deleted myid
        (min qlimit (min MAX_TOP_DIALOGS_LIMIT td.dialogs.length))
        (td.dialogs.map (fun x => x.dialog_id)) 0
  · intro d hd huser
    have hskip := getTopGo_mem deleted myid
      (min qlimit (min MAX_TOP_DIALOGS_LIMIT td.dialogs.length))
      (td.dialogs.map (fun x => x.dialog_id)) 0 d (by simpa [do_get_top_dialogs] using hd)
    simp only [skipDialog, huser, decide_True, Bool.true_and, Bool.or_eq_false_iff,
      beq_eq_false_iff_ne, ne_eq] at hskip
    exact hskip

/-- Category with a single chat entry, used for the C5 counterexample and
witness. -/
def c5_td : TopDialogs :=
  { is_dirty := false, rating_timestamp := 0,
    dialogs := [{ dialog_id := { dtype := DialogType.Chat, id := 7 }, rating := 1 }] }

/-- C5 counterexample: with requested limit 0 and one (chat) entry, the
`result.size() == limit` break never fires (size is 1 after the first
push, never 0), so the query returns 1 entity although
`min(limit, MAX_LIMIT, entries.len()) = 0`, refuting the claimed bound. -/
theorem claim_C5_counterexample :
    (do_get_top_dialogs (fun _ => false) 0 0 c5_td).length = 1 ∧
      min 0 (min MAX_TOP_DIALOGS_LIMIT c5_td.dialogs.length) = 0 := by
  exact ⟨rfl, rfl⟩

/-- Witness for C5's amended theorem at limit 2 on `c5_td`. -/
theorem claim_C5_get_top_bounds_witness :
    1 ≤ 2 ∧
      ((do_get_top_dialogs (fun _ => false) 0 2 c5_td).length ≤
          min 2 (min MAX_TOP_DIALOGS_LIMIT c5_td.dialogs.length) ∧
        List.Sublist (do_get_top_dialogs (fun _ => false) 0 2 c5_td)
          (c5_td.dialogs.map (fun x => x.dialog_id)) ∧
        ∀ d ∈ do_get_top_dialogs (fun _ => false) 0 2 c5_td,
          d.dtype = DialogType.User → (fun _ => false : ℤ → Bool) d.id = false ∧ (0:ℤ) ≠ d.id) :=
  ⟨by norm_num, claim_C5_get_top_bounds (fun _ => false) 0 2 c5_td (by norm_num)⟩

/-- C10: the deleted/self filter is applied only to entities of kind
`User`: on a category whose entries are all non-users (chats, channels,
…), the result is independent of the deletion/self oracle and equals the
plain truncation of the entry list (all entries when the computed limit is
0, the first `limit` otherwise) — non-user entities pass through
unfiltered regardless of what the oracle would report. -/
theorem claim_C10_filter_only_users (del del' : ℤ → Bool) (myid myid' : ℤ)
    (qlimit : ℕ) (td : TopDialogs)
    (h : ∀ x ∈ td.dialogs, x.dialog_id.dtype ≠ DialogType.User) :
    do_get_top_dialogs del myid qlimit td = do_get_top_dialogs del' myid' qlimit td ∧
      do_get_top_dialogs del myid qlimit td =
        (if min qlimit (min MAX_TOP_DIALOGS_LIMIT td.dialogs.length) = 0 then
            td.dialogs.map (fun x => x.dialog_id)
          else
            (td.dialogs.map (fun x => x.dialog_id)).take
              (min qlimit (min MAX_TOP_DIALOGS_LIMIT td.dialogs.length))) := by
  have hns : ∀ (g : ℤ → Bool) (m : ℤ), ∀ d ∈ td.dialogs.map (fun x => x.dialog_id),
      skipDialog g m d = false := by
    intro g m d hd
    rcases List.mem_map.mp hd with ⟨x, hx, rfl⟩
    have hx' := h x hx
    simp [skipDialog, hx']
  constructor
  · simp only [do_get_top_dialogs]
    rw [getTopGo_noskip del myid _ _ 0 (hns del myid),
      getTopGo_noskip del' myid' _ _ 0 (hns del' myid')]
  · simp only [do_get_top_dialogs]
    rw [getTopGo_noskip del myid _ _ 0 (hns del myid)]
    simp only [Nat.le_zero, Nat.sub_zero]

/-- Category with one chat and one channel entry, used for the C10
witness. -/
def c10_td : TopDialogs :=
  { is_dirty := false, rating_timestamp := 0,
    dialogs := [{ dialog_id := { dtype := DialogType.Chat, id := 7 }, rating := 5 },
                { dialog_id := { dtype := DialogType.Channel, id := 8 }, rating := 3 }] }

/-- Witness for C10: an everything-is-deleted oracle and an
everything-is-fine oracle give the same answer on a chat/channel-only
category. -/
theorem claim_C10_filter_only_users_witness :
    (∀ x ∈ c10_td.dialogs, x.dialog_id.dtype ≠ DialogType.User) ∧
      (do_get_top_dialogs (fun _ => true) 7 1 c10_td =
          do_get_top_dialogs (fun _ => false) 8 1 c10_td ∧
        do_get_top_dialogs (fun _ => true) 7 1 c10_td =
          (if min 1 (min MAX_TOP_DIALOGS_LIMIT c10_td.dialogs.length) = 0 then
              c10_td.dialogs.map (fun x => x.dialog_id)
            else
              (c10_td.dialogs.map (fun x => x.dialog_id)).take
                (min 1 (min MAX_TOP_DIALOGS_LIMIT c10_td.dialogs.length)))) :=
  ⟨by decide, claim_C10_filter_only_users (fun _ => true) (fun _ => false) 7 8 1 c10_td (by decide)⟩

theorem syncState_none_eq_ok_iff : (SyncState.None = SyncState.Ok) ↔ False := by
  constructor
  · intro h; cases h
  · intro h; cases h

theorem loop_db_sync_flush (now : ℚ) (s : MgrState)
    (h : (loop_db_sync now s).2.1 = true) :
    (loop_db_sync now s).1.server_sync_state = SyncState.Ok ∧
      (loop_db_sync now s).1.db_sync_state = SyncState.Ok ∧
      (loop_db_sync now s).1.first_unsync_change = none := by
  cases hfc : s.first_unsync_change with
  | none =>
    by_cases h1 : s.db_sync_state = SyncState.Ok
    · simp [loop_db_sync, hfc, h1] at h
    · by_cases h2 : s.db_sync_state = SyncState.None
      · by_cases h3 : s.server_sync_state = SyncState.Ok
        · simp [loop_db_sync, hfc, h1, h2, h3, do_save_top_dialogs]
        · simp [loop_db_sync, hfc, h1, h2, h3] at h
      · simp [loop_db_sync, hfc, h1, h2] at h
  | some fc =>
    by_cases hdem : s.db_sync_state = SyncState.Ok ∧ fc + DB_SYNC_DELAY ≤ now
    · by_cases h3 : s.server_sync_state = SyncState.Ok
      · simp [loop_db_sync, hfc, hdem.1, hdem.2, h3, syncState_none_eq_ok_iff,
          do_save_top_dialogs]
      · simp [loop_db_sync, hfc, hdem.1, hdem.2, h3, syncState_none_eq_ok_iff] at h
    · by_cases h1 : s.db_sync_state = SyncState.Ok
      · have hle : ¬ (fc + DB_SYNC_DELAY ≤ now) := fun hle => hdem ⟨h1, hle⟩
        simp [loop_db_sync, hfc, h1, hle] at h
      · by_cases h2 : s.db_sync_state = SyncState.None
        · by_cases h3 : s.server_sync_state = SyncState.Ok
          · simp [loop_db_sync, hfc, hdem, h1, h2, h3, do_save_top_dialogs]
          · simp [loop_db_sync, hfc, hdem, h1, h2, h3] at h
        · simp [loop_db_sync, hfc, hdem, h1, h2] at h

/-- C9: whenever a `loop` invocation performs the durable flush
(`do_save_top_dialogs`), the remote sync state is `Ok` at that point (the
flush branch is gated on `server_sync_state_ == SyncState::Ok`, and the
flush does not change it), and afterwards the durable sync state is `Ok`
and `first_unsync_change` is cleared.  Stated for every state, so it holds
at every reachable step. -/
theorem claim_C9_flush_gated (now : ℚ) (s : MgrState)
    (h : (loop now s).did_flush = true) :
    (loop now s).state.server_sync_state = SyncState.Ok ∧
      (loop now s).state.db_sync_state = SyncState.Ok ∧
      (loop now s).state.first_unsync_change = none := by
  by_cases hact : s.is_active = false
  · simp only [loop, if_pos hact] at h
    cases h
  · simp only [loop, if_neg hact] at h ⊢
    exact loop_db_sync_flush now _ h

/-- State for the C9 witness: active, remote sync fresh (`Ok`), durable
state `None` (a pending unsaved change). -/
def c9_state : MgrState :=
  { is_active := true,
    server_sync_state := SyncState.Ok,
    db_sync_state := SyncState.None,
    last_server_sync := 0,
    first_unsync_change := none }

/-- Witness for C9: at time 0 the scheduler flushes `c9_state` and the
conclusions hold. -/
theorem claim_C9_flush_gated_witness :
    (loop 0 c9_state).did_flush = true ∧
      ((loop 0 c9_state).state.server_sync_state = SyncState.Ok ∧
        (loop 0 c9_state).state.db_sync_state = SyncState.Ok ∧
        (loop 0 c9_state).state.first_unsync_change = none) :=
  have hflush : (loop 0 c9_state).did_flush = true := by
    norm_num [loop, loop_server_sync, loop_db_sync, do_save_top_dialogs, relaxOpt,
      c9_state, SERVER_SYNC_DELAY, DB_SYNC_DELAY, syncState_none_eq_ok_iff]
  ⟨hflush, claim_C9_flush_gated 0 c9_state hflush⟩

theorem on_result_skip_effects (f : ℚ → ℚ → ℚ) (st mt : ℚ) (s : MgrState) (r : FetchResult)
    (hr : r = FetchResult.fetchError ∨ r = FetchResult.notModified) :
    (on_result f st mt r s).state.by_category.map stripDirty =
        s.by_category.map (fun td => stripDirty (normalize_category f st td)) ∧
      (on_result f st mt r s).state.server_sync_state = SyncState.Ok ∧
      (on_result f st mt r s).state.last_server_sync = mt := by
  have hnt : ¬ (mt + SERVER_SYNC_DELAY ≤ mt) := by
    simp only [SERVER_SYNC_DELAY]
    intro hc
    linarith
  rcases hr with rfl | rfl <;>
  · simp only [on_result]
    refine ⟨?_, ?_, ?_⟩
    · rw [loop_strip]
      simp [normalize_rating, List.map_map, Function.comp]
    · exact loop_server_ok mt _ rfl hnt
    · rw [loop_last]

/-- C1 (amended): applying a "not modified" remote response is not a
state no-op: before inspecting the response the handler rescales every
category (each rating divided by the elapsed decay, `rating_timestamp`
advanced to the current server time `st`, every category marked dirty and
the durable sync state set to `None` — after which the trailing `loop`
may flush), and it advances the remote sync state to `Ok` and sets
`last_remote_sync`; no category's entry set is replaced (dialog ids and
their order are preserved, only the uniform rescale applies). -/
theorem claim_C1_not_modified_rescales (f : ℚ → ℚ → ℚ) (st mt : ℚ) (s : MgrState) :
    (on_result f st mt FetchResult.notModified s).state.by_category.map stripDirty =
        s.by_category.map (fun td => stripDirty (normalize_category f st td)) ∧
      (on_result f st mt FetchResult.notModified s).state.server_sync_state = SyncState.Ok ∧
      (on_result f st mt FetchResult.notModified s).state.last_server_sync = mt :=
  on_result_skip_effects f st mt s FetchResult.notModified (Or.inr rfl)

/-- C2 (amended): a failed `contacts_getTopPeers` response does not
leave the sync machine untouched: the handler has already rescaled all
ratings, advanced the remote sync state to `Ok`, updated
`last_remote_sync`, and set the durable sync state to `None` (the
trailing `loop` may then flush) before it checks for the error; only the
category replacement is skipped and the error is logged. -/
theorem claim_C2_error_still_syncs (f : ℚ → ℚ → ℚ) (st mt : ℚ) (s : MgrState) :
    (on_result f st mt FetchResult.fetchError s).state.by_category.map stripDirty =
        s.by_category.map (fun td => stripDirty (normalize_category f st td)) ∧
      (on_result f st mt FetchResult.fetchError s).state.server_sync_state = SyncState.Ok ∧
      (on_result f st mt FetchResult.fetchError s).state.last_server_sync = mt :=
  on_result_skip_effects f st mt s FetchResult.fetchError (Or.inl rfl)

/-- State for the C1/C2 counterexamples: active, category 0 holds one
user entry with rating 0 and `rating_timestamp = 0`, remote sync state
`None`, durable state `Ok`. -/
def cx_state : MgrState :=
  { is_active := true,
    by_category :=
      [{ is_dirty := false, rating_timestamp := 0,
         dialogs := [{ dialog_id := { dtype := DialogType.User, id := 3 }, rating := 0 }] },
       {}, {}, {}, {}, {}],
    server_sync_state := SyncState.None,
    db_sync_state := SyncState.Ok,
    last_server_sync := 0,
    first_unsync_change := none,
    was_first_sync := false }

/-- C1 counterexample: a "not modified" response arriving at server time 5
changes category 0's `rating_timestamp` from 0 to 5, refuting "every
Category Ranking Set (rating_timestamp and all entries) is byte-for-byte
unchanged".  (The entry's rating 0 is unchanged by the rescale division —
faithful to the source, where `0 / exp(...) = 0` — so the constant-one
stand-in for the decay function is immaterial here.) -/
theorem claim_C1_counterexample :
    (getCat cx_state 0).rating_timestamp = 0 ∧
      (getCat (on_result (fun _ _ => 1) 5 5 FetchResult.notModified cx_state).state
          0).rating_timestamp = 5 := by
  refine ⟨rfl, ?_⟩
  norm_num [on_result, normalize_rating, normalize_category, loop, loop_server_sync,
    loop_db_sync, do_save_top_dialogs, relaxOpt, getCat, cx_state,
    SERVER_SYNC_DELAY, DB_SYNC_DELAY, syncState_none_eq_ok_iff]

/-- C2 counterexample: a failed fetch response still advances the remote
sync state from `None` to `Ok` (and, as in C1's counterexample, rescales
categories and updates `last_remote_sync`), refuting "the sync state
machine is left untouched on failure". -/
theorem claim_C2_counterexample :
    cx_state.server_sync_state = SyncState.None ∧
      (on_result (fun _ _ => 1) 5 5 FetchResult.fetchError cx_state).state.server_sync_state =
        SyncState.Ok :=
  ⟨rfl,
    (on_result_skip_effects (fun _ _ => 1) 5 5 cx_state FetchResult.fetchError (Or.inl rfl)).2.1⟩

/-- C4 (amended): a malformed (nonempty, undecodable) durable snapshot
for any category aborts the whole startup — `log_event_parse(...).ensure()`
is fatal on a parse error — rather than being confined to that category;
conversely, startup never aborts otherwise: absent (empty) values leave
their category empty and decodable values load. -/
theorem claim_C4_malformed_aborts (useChatInfoDb : Bool) (tsStored : Option ℚ)
    (sys now st : ℚ) (f : ℚ → ℚ → ℚ) (store : Fin 6 → List SnapToken) :
    start_up useChatInfoDb tsStored sys now st f store = none ↔
      useChatInfoDb = true ∧ ∃ i : Fin 6, store i ≠ [] ∧ parseTopDialogs (store i) = none :=
  start_up_none_iff useChatInfoDb tsStored sys now st f store

/-- Durable store for the C4 counterexample: category 0's value is
malformed (a bare count token), category 1's value is a valid snapshot,
the rest are absent. -/
def c4_store : Fin 6 → List SnapToken := fun i =>
  if i = 0 then [SnapToken.cnt 3]
  else if i = 1 then
    storeTopDialogs
      { is_dirty := false, rating_timestamp := 2,
        dialogs := [{ dialog_id := { dtype := DialogType.User, id := 9 }, rating := 4 }] }
  else []

/-- C4 counterexample: category 0's stored snapshot is malformed while
category 1's decodes fine, yet `start_up` aborts the whole startup instead
of confining the failure to category 0 and loading the others. -/
theorem claim_C4_counterexample :
    parseTopDialogs (c4_store 1) =
        some (2, [{ dialog_id := { dtype := DialogType.User, id := 9 }, rating := 4 }]) ∧
      start_up true none 0 0 0 (fun _ _ => 1) c4_store = none := by
  exact ⟨rfl, rfl⟩
